import Mathlib

/-
  Shallow embedding of src/rag_system.py (class CarbonFootprintRAG).

  The Python module orchestrates third-party effectful components
  (langchain DirectoryLoader, RecursiveCharacterTextSplitter, FAISS,
  a RetrievalQA chain).  The embedding models the module's own control
  flow exactly; the third-party calls are resolved by an explicit
  environment (`Env`) of outcomes, and Python exceptions become the
  error branch of `Except`.  Mutation of the object's fields and its
  observable effects (saves to the faiss_index directory, printed
  diagnostics) are threaded through an explicit state (`RAGState`):
  every method returns its Python result (or the propagated exception)
  together with the state after the call, since a raised exception does
  not roll back mutations that already happened.
-/

namespace RagSystem

/-- A langchain `Document`: page content plus its source metadata. -/
structure Document where
  page_content : String
  source : String
deriving Repr, DecidableEq

/-- A Python exception value, identified by its message. -/
structure PyError where
  msg : String
deriving Repr, DecidableEq

/-- A FAISS vector-store handle.  Searches and insertions on it are
resolved by the environment; the payload records the indexed chunks. -/
structure VectorStore where
  docs : List Document
deriving Repr, DecidableEq

/-- A RetrievalQA chain, built over a retriever on a vector store with
similarity search and k = 4 (setup_qa_chain, lines 147-179). -/
structure QAChain where
  retrieverStore : VectorStore
  k : Nat
deriving Repr, DecidableEq

/-- The dictionary returned by `qa_chain.invoke`: a "result" entry and a
"source_documents" entry. -/
structure InvokeResult where
  result : String
  source_documents : List Document
deriving Repr, DecidableEq

/-- The dictionary returned by `CarbonFootprintRAG.query`: an "answer"
entry and a "source_documents" entry. -/
structure QueryAnswer where
  answer : String
  source_documents : List Document
deriving Repr, DecidableEq

/-- The Python `AttributeError` raised when an attribute is looked up on
`None` (e.g. `self.vector_store.similarity_search` while
`self.vector_store is None`). -/
def noneAttributeError (attr : String) : PyError :=
  { msg := "AttributeError: NoneType object has no attribute " ++ attr }

/-! ### Context assembly (get_context_for_agent, lines 227-253) -/

/-- One formatted source block: `"[Source i]: " + page_content + "\n"`
(line 247 of rag_system.py). -/
def source_block (i : Nat) (content : String) : String :=
  "[Source " ++ toString i ++ "]: " ++ content ++ "\n"

/-- The `for`/`break` loop of get_context_for_agent (lines 246-251):
starting from index `i` and running length `cl`, formats each document
as a source block, stops (`break`) at the first block whose inclusion
would push the running length beyond `max_length`, and otherwise
accumulates the block and its length. -/
def assembleParts (max_length : Nat) : Nat → Nat → List Document → List String
  | _, _, [] => []
  | i, cl, d :: ds =>
    let t := source_block i d.page_content
    if cl + t.length > max_length then []
    else t :: assembleParts max_length (i + 1) (cl + t.length) ds

/-- Python's `"\n".join`: interleaves a single newline between the
strings of the list (line 253 of rag_system.py). -/
def joinNewline : List String → String
  | [] => ""
  | [t] => t
  | t :: t' :: ts => t ++ "\n" ++ joinNewline (t' :: ts)

/-- The fixed sentinel returned when retrieval produced no documents
(line 241 of rag_system.py). -/
def no_context_sentinel : String := "No relevant context found in knowledge base."

/-- The pure core of get_context_for_agent (lines 240-253): the part of
the method that runs after `retrieve_context` has produced `docs`. -/
def get_context_core (docs : List Document) (max_length : Nat) : String :=
  if docs.isEmpty then no_context_sentinel
  else joinNewline (assembleParts max_length 1 0 docs)

/-- The numbered source blocks of a document list, starting at index
`i`: the sequence of candidate blocks the assembly loop walks through. -/
def blocksFrom : Nat → List Document → List String
  | _, [] => []
  | i, d :: ds => source_block i d.page_content :: blocksFrom (i + 1) ds

/-- Total character length of a list of strings. -/
def sumLen (l : List String) : Nat := (l.map String.length).sum

/-! ### Chunker

The text splitter invoked by `load_documents` (lines 78-83) is
langchain's `RecursiveCharacterTextSplitter`, third-party code that is
not part of this repository's sources; the repository only configures
it with `chunk_size = 1000`, `chunk_overlap = 200` and `len` as the
length function.  It is therefore modelled from the spec here. -/

/-- Stride between consecutive character-level windows.  The spec
requires `chunk_overlap < chunk_size` to be rejected or clamped (else
no progress); clamping to a stride of at least one character. -/
def chunkStep (chunk_size chunk_overlap : Nat) : Nat :=
  max 1 (chunk_size - chunk_overlap)

/-- Modelled from the spec: the character-level base case of the
splitter — fixed-width windows of `chunk_size` characters over a text
of length `n` starting at offset `start`, each window's start advancing
by `chunkStep` so that consecutive windows overlap by at most
`chunk_overlap` characters.  Returns `(start, length)` spans.  `fuel`
only bounds the recursion depth; the caller passes `fuel = n`, which
always suffices because each step consumes at least one character. -/
def charSpansGo (size overlap : Nat) : Nat → Nat → Nat → List (Nat × Nat)
  | 0, start, n => [(start, n)]
  | fuel + 1, start, n =>
    if n ≤ size then [(start, n)]
    else (start, size) ::
      charSpansGo size overlap fuel (start + chunkStep size overlap)
        (n - chunkStep size overlap)

/-- Character-level windows over a text of length `n` at offset `start`. -/
def charSpans (size overlap start n : Nat) : List (Nat × Nat) :=
  charSpansGo size overlap n start n

/-- Splits a character list at separator `c`, keeping each separator
attached to the end of the segment it terminates, so the segments
concatenate back to the original text. -/
def splitKeep (c : Char) : List Char → List (List Char)
  | [] => []
  | a :: rest =>
    match splitKeep c rest with
    | [] => [[a]]
    | seg :: segs => if a = c then [a] :: seg :: segs else (a :: seg) :: segs

/-- Pairs each segment with its starting offset in the original text. -/
def withOffsets : Nat → List (List Char) → List (Nat × List Char)
  | _, [] => []
  | start, seg :: segs => (start, seg) :: withOffsets (start + seg.length) segs

/-- Modelled from the spec: the recursive splitting strategy of the
Chunker — attempt the coarsest separator first; a segment that still
exceeds `chunk_size` is split again with the next finer separator,
bottoming out in overlapping fixed-width character windows.  A text
already within `chunk_size` is returned whole.  Returns
`(start, length)` spans into the original text. -/
def recSpans (size overlap : Nat) : List Char → Nat → List Char → List (Nat × Nat)
  | [], start, s => charSpans size overlap start s.length
  | c :: rest, start, s =>
    if s.length ≤ size then [(start, s.length)]
    else
      (withOffsets start (splitKeep c s)).flatMap
        (fun p => if p.2.length ≤ size then [(p.1, p.2.length)]
                  else recSpans size overlap rest p.1 p.2)

/-- The separator hierarchy of the modelled splitter: line boundaries
(paragraph/sentence level), then word boundaries, then characters. -/
def separators : List Char := ['\n', ' ']

/-- Modelled from the spec: spans of the chunks the Chunker produces
for one document.  An empty document produces zero chunks, not an
error. -/
def splitSpans (size overlap : Nat) (text : List Char) : List (Nat × Nat) :=
  if text.isEmpty then [] else recSpans size overlap separators 0 text

/-- Modelled from the spec: `Chunker.split` on one document — every
chunk is the contiguous substring of the text designated by its span. -/
def splitText (size overlap : Nat) (text : List Char) : List (List Char) :=
  (splitSpans size overlap text).map (fun p => (text.drop p.1).take p.2)

/-- `text_splitter.split_documents` (line 83): chunks every document,
each chunk carrying its originating document's source metadata. -/
def split_documents (size overlap : Nat) (docs : List Document) : List Document :=
  docs.flatMap (fun d =>
    (splitText size overlap d.page_content.toList).map
      (fun cs => { page_content := String.mk cs, source := d.source }))

/-! ### Environment and state -/

/-- Outcomes of the third-party calls the module makes, one field per
external operation: `FAISS.load_local`, the per-file loads of
langchain's `DirectoryLoader`, `FAISS.from_documents`,
`save_local`, `FAISS.add_documents`, `similarity_search`, and
`qa_chain.invoke`.  `pathExists` is `os.path.exists` on
`<knowledge_base>/faiss_index`. -/
structure Env where
  pathExists : Bool
  loadLocal : Except PyError VectorStore
  fileOutcomes : List (Except PyError (List Document))
  fromDocuments : List Document → Except PyError VectorStore
  saveResult : Except PyError Unit
  addDocs : VectorStore → List Document → Except PyError VectorStore
  similaritySearch : VectorStore → String → Nat → Except PyError (List Document)
  invoke : QAChain → String → Except PyError InvokeResult

/-- `DirectoryLoader.load` over the per-file outcomes.  With the
loader's default configuration (`silent_errors = False`, as in
load_documents, lines 69-75) the first file that fails to read or
decode makes the whole load raise; otherwise the files' documents are
concatenated in order. -/
def directoryLoad : List (Except PyError (List Document)) → Except PyError (List Document)
  | [] => .ok []
  | .error e :: _ => .error e
  | .ok ds :: rest => (directoryLoad rest).map (fun tl => ds ++ tl)

/-- The mutable fields of a `CarbonFootprintRAG` object, together with
its two externally observable effect logs: `saveCalls` records each
`save_local` to `<knowledge_base>/faiss_index` (the store saved), and
`prints` the printed diagnostics. -/
structure RAGState where
  vector_store : Option VectorStore
  qa_chain : Option QAChain
  saveCalls : List VectorStore
  prints : List String
deriving Repr, DecidableEq

/-- The freshly constructed object: `__init__` leaves `vector_store`
and `qa_chain` as `None` and performs no save. -/
def initState : RAGState :=
  { vector_store := none, qa_chain := none, saveCalls := [], prints := [] }

/-! ### Methods of CarbonFootprintRAG -/

/-- load_documents (lines 60-88): loads the knowledge-base files and
splits them into chunks with `chunk_size = 1000`, `chunk_overlap = 200`;
any exception is caught, a diagnostic is printed, and the empty list is
returned. -/
def load_documents (env : Env) (st : RAGState) : List Document × RAGState :=
  match directoryLoad env.fileOutcomes with
  | .error e =>
      ([], { st with prints := st.prints ++ ["Error loading documents: " ++ e.msg] })
  | .ok docs => (split_documents 1000 200 docs, st)

/-- create_vector_store (lines 90-113): with no explicit documents,
loads from the knowledge base; an empty document list prints a
diagnostic and returns without building; otherwise builds the FAISS
store, records it in `vector_store`, saves it to disk and prints the
chunk count.  Exceptions from the build or the save propagate. -/
def create_vector_store (env : Env) (st : RAGState) (documents : Option (List Document)) :
    Except PyError Unit × RAGState :=
  let p := match documents with
    | none => load_documents env st
    | some d => (d, st)
  let docs := p.1
  let st1 := p.2
  if docs.isEmpty then
    (.ok (), { st1 with prints := st1.prints ++ ["No documents found to create vector store."] })
  else
    match env.fromDocuments docs with
    | .error e => (.error e, st1)
    | .ok vs =>
      let st2 := { st1 with vector_store := some vs, saveCalls := st1.saveCalls ++ [vs] }
      match env.saveResult with
      | .error e => (.error e, st2)
      | .ok _ =>
        (.ok (), { st2 with prints := st2.prints ++
          ["Vector store created with " ++ toString docs.length ++ " document chunks."] })

/-- load_vector_store (lines 115-128): if a persisted index exists at
`<knowledge_base>/faiss_index` it is loaded (a failing
`FAISS.load_local` propagates — there is no try/except here);
otherwise a fresh store is created from the knowledge base. -/
def load_vector_store (env : Env) (st : RAGState) : Except PyError Unit × RAGState :=
  if env.pathExists then
    match env.loadLocal with
    | .error e => (.error e, st)
    | .ok vs =>
      (.ok (), { st with
                 vector_store := some vs,
                 prints := st.prints ++ ["Vector store loaded successfully."] })
  else
    create_vector_store env
      { st with prints := st.prints ++ ["No existing vector store found. Creating new one..."] }
      none

/-- add_documents (lines 130-145): lazily initializes the store, then,
for a non-empty list, adds the documents (FAISS mutates the store in
place) and saves the updated store.  `self.vector_store.add_documents`
on a still-`None` store raises an uncaught `AttributeError`. -/
def add_documents (env : Env) (st : RAGState) (documents : List Document) :
    Except PyError Unit × RAGState :=
  let p := if st.vector_store.isNone then load_vector_store env st else (.ok (), st)
  match p with
  | (.error e, st1) => (.error e, st1)
  | (.ok _, st1) =>
    if documents.isEmpty then (.ok (), st1)
    else
      match st1.vector_store with
      | none => (.error (noneAttributeError "add_documents"), st1)
      | some vs =>
        match env.addDocs vs documents with
        | .error e => (.error e, st1)
        | .ok vs2 =>
          let st2 := { st1 with vector_store := some vs2, saveCalls := st1.saveCalls ++ [vs2] }
          match env.saveResult with
          | .error e => (.error e, st2)
          | .ok _ =>
            (.ok (), { st2 with prints := st2.prints ++
              ["Added " ++ toString documents.length ++ " documents to vector store."] })

/-- setup_qa_chain (lines 147-179): lazily initializes the store, then
builds the RetrievalQA chain over its retriever with `k = 4`.
`self.vector_store.as_retriever` on a still-`None` store raises an
uncaught `AttributeError`. -/
def setup_qa_chain (env : Env) (st : RAGState) : Except PyError Unit × RAGState :=
  let p := if st.vector_store.isNone then load_vector_store env st else (.ok (), st)
  match p with
  | (.error e, st1) => (.error e, st1)
  | (.ok _, st1) =>
    match st1.vector_store with
    | none => (.error (noneAttributeError "as_retriever"), st1)
    | some vs => (.ok (), { st1 with qa_chain := some { retrieverStore := vs, k := 4 } })

/-- query (lines 181-204): lazily sets up the QA chain (outside the
try block — its failures propagate), then invokes it; an exception
from the invocation is caught and turned into an error-message answer
with no source documents. -/
def query (env : Env) (st : RAGState) (question : String) :
    Except PyError QueryAnswer × RAGState :=
  let p := if st.qa_chain.isNone then setup_qa_chain env st else (.ok (), st)
  match p with
  | (.error e, st1) => (.error e, st1)
  | (.ok _, st1) =>
    match st1.qa_chain with
    | none =>
      (.ok { answer := "Error processing query: " ++ (noneAttributeError "invoke").msg,
             source_documents := [] }, st1)
    | some qc =>
      match env.invoke qc question with
      | .error e =>
        (.ok { answer := "Error processing query: " ++ e.msg, source_documents := [] }, st1)
      | .ok r => (.ok { answer := r.result, source_documents := r.source_documents }, st1)

/-- retrieve_context (lines 206-225): lazily initializes the store
(outside the try block — its failures propagate), then runs the
similarity search; an exception from the search, including the
`AttributeError` of a still-`None` store, is caught, a diagnostic is
printed, and the empty list is returned. -/
def retrieve_context (env : Env) (st : RAGState) (q : String) (k : Nat) :
    Except PyError (List Document) × RAGState :=
  let p := if st.vector_store.isNone then load_vector_store env st else (.ok (), st)
  match p with
  | (.error e, st1) => (.error e, st1)
  | (.ok _, st1) =>
    match st1.vector_store with
    | none =>
      (.ok [], { st1 with prints := st1.prints ++
        ["Error retrieving context: " ++ (noneAttributeError "similarity_search").msg] })
    | some vs =>
      match env.similaritySearch vs q k with
      | .error e =>
        (.ok [], { st1 with prints := st1.prints ++ ["Error retrieving context: " ++ e.msg] })
      | .ok docs => (.ok docs, st1)

/-- get_context_for_agent (lines 227-253): retrieves with the default
`k = 4` and assembles the bounded context string; an exception from
the retrieval (i.e. from its lazy initialization) propagates. -/
def get_context_for_agent (env : Env) (st : RAGState) (q : String) (max_length : Nat) :
    Except PyError String × RAGState :=
  match retrieve_context env st q 4 with
  | (.error e, st1) => (.error e, st1)
  | (.ok docs, st1) => (.ok (get_context_core docs max_length), st1)

/-! ### Concrete fixtures used by witnesses and counterexamples -/

/-- A baseline environment: a persisted index exists but fails to
deserialize; every other external call succeeds trivially. -/
def envCorruptIndex : Env :=
  { pathExists := true, loadLocal := .error ⟨"could not deserialize faiss_index"⟩,
    fileOutcomes := [], fromDocuments := fun _ => .ok ⟨[]⟩, saveResult := .ok (),
    addDocs := fun _ _ => .ok ⟨[]⟩, similaritySearch := fun _ _ _ => .ok [],
    invoke := fun _ _ => .ok ⟨"", []⟩ }

/-- No persisted index and a knowledge base with zero documents. -/
def envEmptyKB : Env :=
  { envCorruptIndex with pathExists := false }

/-- No persisted index; one knowledge-base file loads and a second one
fails to read. -/
def envOneBadFile : Env :=
  { envCorruptIndex with
    pathExists := false,
    fileOutcomes := [.ok [⟨"hello", "a.txt"⟩], .error ⟨"bad file b.txt"⟩] }

/-- No persisted index; one knowledge-base file loads successfully and
the index builds from it. -/
def envFreshBuild : Env :=
  { envCorruptIndex with
    pathExists := false,
    fileOutcomes := [.ok [⟨"hello", "a.txt"⟩]],
    fromDocuments := fun ds => .ok ⟨ds⟩ }

/-- A persisted index exists and loads successfully. -/
def envLoadOk : Env :=
  { envCorruptIndex with loadLocal := .ok ⟨[⟨"chunk", "a.txt"⟩]⟩ }

/-- Every external call succeeds, but the similarity search raises. -/
def envSearchErr : Env :=
  { envCorruptIndex with similaritySearch := fun _ _ _ => .error ⟨"search failed"⟩ }

/-- Every external call succeeds, but the QA-chain invocation raises. -/
def envInvokeErr : Env :=
  { envCorruptIndex with invoke := fun _ _ => .error ⟨"rate limited"⟩ }

/-- A state whose vector store is already initialized. -/
def stWithStore : RAGState :=
  { initState with vector_store := some ⟨[⟨"chunk", "a.txt"⟩]⟩ }

/-- A state whose QA chain is already initialized. -/
def stWithChain : RAGState :=
  { initState with
    vector_store := some ⟨[⟨"chunk", "a.txt"⟩]⟩,
    qa_chain := some ⟨⟨[⟨"chunk", "a.txt"⟩]⟩, 4⟩ }

/-- Twenty retrieved documents with empty page content. -/
def emptyDocs20 : List Document := List.replicate 20 ⟨"", "kb"⟩

end RagSystem

namespace RagSystem

/-! ### Lemmas about the context assembly loop -/

theorem sumLen_nil : sumLen [] = 0 := rfl

theorem sumLen_cons (t : String) (ts : List String) :
    sumLen (t :: ts) = t.length + sumLen ts := by
  simp [sumLen]

/-- The running total of the assembly loop never exceeds `max_length`
(or its starting value, when that is already past the bound): every
included block was admitted only while the total including it stayed
within the bound. -/
theorem assembleParts_sum_le (ml : Nat) (docs : List Document) :
    ∀ i cl, cl + sumLen (assembleParts ml i cl docs) ≤ max cl ml := by
  induction docs with
  | nil => intro i cl; simp [assembleParts, sumLen_nil]
  | cons d ds ih =>
    intro i cl
    by_cases h : cl + (source_block i d.page_content).length > ml
    · simp [assembleParts, h, sumLen_nil]
    · have hih := ih (i + 1) (cl + (source_block i d.page_content).length)
      simp only [assembleParts, if_neg h, sumLen_cons]
      omega

/-- Length of Python's `"\n".join` on a non-empty list: the sum of the
parts plus one separator character between consecutive parts. -/
theorem length_joinNewline_cons (ts : List String) : ∀ t : String,
    (joinNewline (t :: ts)).length + 1 = sumLen (t :: ts) + (t :: ts).length := by
  induction ts with
  | nil => intro t; simp [joinNewline, sumLen]
  | cons t' ts' ih =>
    intro t
    have h := ih t'
    have h1 : ("\n" : String).length = 1 := rfl
    simp only [joinNewline, String.length_append, h1, sumLen_cons, List.length_cons] at h ⊢
    omega

/-- The assembly loop never truncates: its output is a prefix of the
full list of numbered source blocks. -/
theorem assembleParts_prefix_of_blocks (ml : Nat) (docs : List Document) :
    ∀ i cl, ∃ rest, assembleParts ml i cl docs ++ rest = blocksFrom i docs := by
  induction docs with
  | nil => intro i cl; exact ⟨[], rfl⟩
  | cons d ds ih =>
    intro i cl
    by_cases h : cl + (source_block i d.page_content).length > ml
    · exact ⟨blocksFrom i (d :: ds), by simp [assembleParts, h]⟩
    · obtain ⟨rest, hr⟩ := ih (i + 1) (cl + (source_block i d.page_content).length)
      exact ⟨rest, by simp [assembleParts, h, blocksFrom, hr]⟩

theorem blocksFrom_length (docs : List Document) : ∀ i, (blocksFrom i docs).length = docs.length := by
  induction docs with
  | nil => intro i; rfl
  | cons d ds ih => intro i; simp [blocksFrom, ih]

/-- The assembly loop is greedy-maximal: the first block left out (if
any) would have pushed the running total past `max_length`. -/
theorem assembleParts_maximal (ml : Nat) (docs : List Document) :
    ∀ i cl b, (blocksFrom i docs)[(assembleParts ml i cl docs).length]? = some b →
      ml < cl + sumLen (assembleParts ml i cl docs) + b.length := by
  induction docs with
  | nil => intro i cl b hb; simp [assembleParts, blocksFrom] at hb
  | cons d ds ih =>
    intro i cl b hb
    by_cases h : cl + (source_block i d.page_content).length > ml
    · simp only [assembleParts, if_pos h, List.length_nil, blocksFrom,
        List.getElem?_cons_zero, Option.some_inj] at hb
      subst hb
      simp only [assembleParts, if_pos h, sumLen_nil]
      omega
    · simp only [assembleParts, if_neg h, List.length_cons, blocksFrom,
        List.getElem?_cons_succ] at hb
      have hih := ih (i + 1) (cl + (source_block i d.page_content).length) b hb
      simp only [assembleParts, if_neg h, sumLen_cons]
      omega

end RagSystem

namespace RagSystem

/-! ### Claims C3, C7, C9 -/

set_option maxRecDepth 40000

/-- C3 counterexample: with twenty retrieved documents of empty page
content and `max_length = 271`, all twenty blocks are admitted (their
lengths sum to exactly 271), but the `"\n".join` adds nineteen
separator newlines that the running total never counted, so the
returned string has 290 characters — more than `max_length` plus the
length of one whole source block (header, content and newline, 14
characters).  The claimed length bound is therefore false. -/
theorem C3_counterexample :
    ¬ ((get_context_core emptyDocs20 271).length ≤ 271 + (source_block 20 "").length) := by
  decide

/-- C3 (amended): for every non-empty retrieval result list and every
`max_length`, the assembled context includes whole source blocks
greedily in rank order — the output parts are a prefix of the numbered
block list, a block is included only while the running total including
it stays within `max_length` (so the parts' summed length is at most
`max_length`), and the first excluded block, if any, would have pushed
the total past `max_length`.  The returned string is the
newline-join of the parts, and since the join interleaves one uncounted
separator character between consecutive parts, its length is at most
`max_length` plus the number of included blocks minus one (not
`max_length` plus a single block header, which the counterexample
refutes). -/
theorem C3_amended (docs : List Document) (ml : Nat) (h : docs ≠ []) :
    List.IsPrefix (assembleParts ml 1 0 docs) (blocksFrom 1 docs) ∧
    sumLen (assembleParts ml 1 0 docs) ≤ ml ∧
    (∀ b, (blocksFrom 1 docs)[(assembleParts ml 1 0 docs).length]? = some b →
      ml < sumLen (assembleParts ml 1 0 docs) + b.length) ∧
    get_context_core docs ml = joinNewline (assembleParts ml 1 0 docs) ∧
    (get_context_core docs ml).length ≤ ml + (assembleParts ml 1 0 docs).length - 1 := by
  have hsum : sumLen (assembleParts ml 1 0 docs) ≤ ml := by
    have := assembleParts_sum_le ml docs 1 0
    omega
  have hcore : get_context_core docs ml = joinNewline (assembleParts ml 1 0 docs) := by
    cases docs with
    | nil => exact absurd rfl h
    | cons d ds => simp [get_context_core]
  refine ⟨⟨(assembleParts_prefix_of_blocks ml docs 1 0).choose, (assembleParts_prefix_of_blocks ml docs 1 0).choose_spec⟩,
    hsum, ?_, hcore, ?_⟩
  · intro b hb
    have := assembleParts_maximal ml docs 1 0 b hb
    omega
  · rw [hcore]
    cases hp : assembleParts ml 1 0 docs with
    | nil => simp [joinNewline]
    | cons t ts =>
      have hj := length_joinNewline_cons ts t
      rw [hp] at hsum
      simp only [List.length_cons, sumLen_cons] at hj hsum ⊢
      omega

/-- C3 witness: on one document of content "abc" with
`max_length = 2000`, the single block is included and the summed length
stays within the bound. -/
theorem C3_witness :
    sumLen (assembleParts 2000 1 0 [⟨"abc", "s"⟩]) ≤ 2000 ∧
    get_context_core [⟨"abc", "s"⟩] 2000 = joinNewline (assembleParts 2000 1 0 [⟨"abc", "s"⟩]) :=
  ⟨(C3_amended [⟨"abc", "s"⟩] 2000 (by simp)).2.1,
   (C3_amended [⟨"abc", "s"⟩] 2000 (by simp)).2.2.2.1⟩

/-- C7: on an empty retrieval result list, the assembly returns the
fixed "no relevant context" sentinel for every `max_length`, and that
sentinel is not the empty string, so callers can distinguish "found
nothing" from "found something but it was empty". -/
theorem C7_theorem : ∀ max_length : Nat,
    get_context_core [] max_length = no_context_sentinel ∧ no_context_sentinel ≠ "" := by
  intro ml
  exact ⟨rfl, by decide⟩

/-- C9: when retrieval returns a non-empty document list but already
the first formatted source block is longer than `max_length`, the
assembly loop breaks immediately with no parts, and the join of no
parts is the empty string — not the sentinel. -/
theorem C9_theorem (d : Document) (ds : List Document) (ml : Nat)
    (h : ml < (source_block 1 d.page_content).length) :
    get_context_core (d :: ds) ml = "" ∧
    get_context_core (d :: ds) ml ≠ no_context_sentinel := by
  have he : get_context_core (d :: ds) ml = "" := by
    simp [get_context_core, assembleParts, h, joinNewline]
  refine ⟨he, ?_⟩
  rw [he]
  decide

/-- C9 witness: one retrieved document of ten characters with
`max_length = 5` yields the empty context string. -/
theorem C9_witness :
    get_context_core [⟨"0123456789", "s"⟩] 5 = "" ∧
    get_context_core [⟨"0123456789", "s"⟩] 5 ≠ no_context_sentinel :=
  C9_theorem ⟨"0123456789", "s"⟩ [] 5 (by decide)

/-! ### Lemmas about the pipeline methods -/

/-- load_documents never touches the vector store, the saved index or
the QA chain; it only returns chunks and possibly prints. -/
theorem load_documents_frame (env : Env) (st : RAGState) :
    (load_documents env st).2.vector_store = st.vector_store ∧
    (load_documents env st).2.saveCalls = st.saveCalls ∧
    (load_documents env st).2.qa_chain = st.qa_chain := by
  cases hd : directoryLoad env.fileOutcomes <;> simp [load_documents, hd]

/-- With the loader's default configuration, one failing file fails the
whole directory load. -/
theorem directoryLoad_error_of_failure :
    ∀ outcomes : List (Except PyError (List Document)),
      (∃ o ∈ outcomes, ∃ e, o = .error e) →
      ∃ e, directoryLoad outcomes = .error e := by
  intro outcomes
  induction outcomes with
  | nil => rintro ⟨o, ho, _⟩; cases ho
  | cons o rest ih =>
    rintro ⟨o', ho', e', he'⟩
    cases o with
    | error e => exact ⟨e, rfl⟩
    | ok ds =>
      have hrest : ∃ o ∈ rest, ∃ e, o = .error e := by
        rcases List.mem_cons.mp ho' with hh | hh
        · rw [hh] at he'; cases he'
        · exact ⟨o', hh, e', he'⟩
      obtain ⟨e, he⟩ := ih hrest
      exact ⟨e, by simp [directoryLoad, he, Except.map]⟩

/-! ### Claims C1, C2, C4, C5, C6, C10 -/

/-- C1 counterexample: the claim says get_context_for_agent never
raises, in particular not for failures while lazily loading the vector
store.  But the lazy `load_vector_store` call sits outside the
try/except of retrieve_context: with a persisted index that fails to
deserialize, the exception propagates to the caller instead of the
sentinel being returned. -/
theorem C1_counterexample :
    (get_context_for_agent envCorruptIndex initState "What is Scope 1?" 2000).1 =
      .error ⟨"could not deserialize faiss_index"⟩ := rfl

/-- C1 (amended): once the vector store is initialized,
get_context_for_agent never raises — any failure of the similarity
search itself is caught and degraded to the fixed "no relevant context"
sentinel; but a failure raised while lazily loading or building the
vector store propagates to the caller, because that call is outside
the try/except. -/
theorem C1_amended (env : Env) (st : RAGState) (q : String) (ml : Nat) :
    (∀ vs, st.vector_store = some vs →
        (∃ s, (get_context_for_agent env st q ml).1 = .ok s) ∧
        (∀ e, env.similaritySearch vs q 4 = .error e →
            (get_context_for_agent env st q ml).1 = .ok no_context_sentinel)) ∧
    (∀ e, st.vector_store = none → (load_vector_store env st).1 = .error e →
        (get_context_for_agent env st q ml).1 = .error e) := by
  constructor
  · intro vs hvs
    constructor
    · cases hs : env.similaritySearch vs q 4 with
      | error e =>
        exact ⟨no_context_sentinel,
          by simp [get_context_for_agent, retrieve_context, hvs, hs, get_context_core]⟩
      | ok docs =>
        exact ⟨get_context_core docs ml,
          by simp [get_context_for_agent, retrieve_context, hvs, hs]⟩
    · intro e hs
      simp [get_context_for_agent, retrieve_context, hvs, hs, get_context_core]
  · intro e hnone hload
    rcases hp : load_vector_store env st with ⟨r, st1⟩
    rw [hp] at hload
    simp only at hload
    subst hload
    simp [get_context_for_agent, retrieve_context, hnone, hp]

/-- C1 witness: with an initialized store and a failing similarity
search, the caller receives the sentinel, not an exception. -/
theorem C1_witness :
    (get_context_for_agent envSearchErr stWithStore "q" 2000).1 = .ok no_context_sentinel :=
  ((C1_amended envSearchErr stWithStore "q" 2000).1 _ rfl).2 ⟨"search failed"⟩ rfl

/-- C2 counterexample: invoking create_vector_store with an explicitly
empty document list surfaces no error at all — it returns normally
(after printing a diagnostic), so no EmptyInputError or any other
failure reaches the caller. -/
theorem C2_counterexample :
    (create_vector_store envFreshBuild initState (some [])).1 = .ok () ∧
    (create_vector_store envFreshBuild initState (some [])).2.vector_store = none ∧
    (create_vector_store envFreshBuild initState (some [])).2.saveCalls = [] :=
  ⟨rfl, rfl, rfl⟩

/-- C2 (amended): when the effective document list (explicit, or loaded
from the knowledge base) is empty, create_vector_store silently
accepts the no-op: it returns normally with only a printed diagnostic,
and the vector store remains unconstructed — the in-memory store is
unchanged and nothing is saved. -/
theorem C2_amended (env : Env) (st : RAGState) (documents : Option (List Document))
    (h : (match documents with
          | some d => d
          | none => (load_documents env st).1) = []) :
    (create_vector_store env st documents).1 = .ok () ∧
    (create_vector_store env st documents).2.vector_store = st.vector_store ∧
    (create_vector_store env st documents).2.saveCalls = st.saveCalls := by
  cases documents with
  | some d =>
    simp only at h
    subst h
    simp [create_vector_store]
  | none =>
    have hframe := load_documents_frame env st
    rcases hld : load_documents env st with ⟨docs, st1⟩
    rw [hld] at h hframe
    simp only at h
    subst h
    simp [create_vector_store, hld]
    exact ⟨hframe.1, hframe.2.1⟩

/-- C2 witness: with an empty knowledge base and no explicit documents,
create_vector_store returns normally and constructs nothing. -/
theorem C2_witness :
    (create_vector_store envEmptyKB initState none).1 = .ok () ∧
    (create_vector_store envEmptyKB initState none).2.vector_store = none ∧
    (create_vector_store envEmptyKB initState none).2.saveCalls = [] :=
  C2_amended envEmptyKB initState none rfl

/-- C4 counterexample: with a knowledge base of zero documents and no
persisted index, the lazy setup_qa_chain leaves the vector store as
None and then raises an AttributeError on `as_retriever`; this happens
outside the try/except of query, so query crashes instead of returning
a degraded answer dictionary. -/
theorem C4_counterexample :
    (query envEmptyKB initState "What is Scope 1?").1 =
      .error (noneAttributeError "as_retriever") := rfl

/-- C4 (amended): query never propagates an error raised by the
QA-chain invocation itself — such failures are caught and returned as
an error-message answer dictionary with no source documents; but an
error raised during the lazy chain setup (in particular the
AttributeError following an empty-knowledge-base build that leaves the
store unconstructed) propagates to the caller. -/
theorem C4_amended (env : Env) (st : RAGState) (q : String) :
    (∀ qc e, st.qa_chain = some qc → env.invoke qc q = .error e →
        (query env st q).1 =
          .ok { answer := "Error processing query: " ++ e.msg, source_documents := [] }) ∧
    (∀ qc r, st.qa_chain = some qc → env.invoke qc q = .ok r →
        (query env st q).1 = .ok { answer := r.result, source_documents := r.source_documents }) ∧
    (∀ e, st.qa_chain = none → (setup_qa_chain env st).1 = .error e →
        (query env st q).1 = .error e) := by
  refine ⟨?_, ?_, ?_⟩
  · intro qc e hqc hi
    simp [query, hqc, hi]
  · intro qc r hqc hi
    simp [query, hqc, hi]
  · intro e hn hs
    rcases hp : setup_qa_chain env st with ⟨r, st1⟩
    rw [hp] at hs
    simp only at hs
    subst hs
    simp [query, hn, hp]

/-- C4 witness: with an initialized chain and a failing invocation, the
caller receives the degraded answer dictionary. -/
theorem C4_witness :
    (query envInvokeErr stWithChain "q").1 =
      .ok { answer := "Error processing query: rate limited", source_documents := [] } :=
  (C4_amended envInvokeErr stWithChain "q").1 _ ⟨"rate limited"⟩ rfl rfl

/-- C5 counterexample: one knowledge-base file loads successfully
(chunking to a non-empty corpus) and a second file fails to read; the
loader raises, load_documents catches and returns the empty list —
the chunks of the successfully loaded file are discarded instead of
being returned as a partial corpus. -/
theorem C5_counterexample :
    (load_documents envOneBadFile initState).1 = [] ∧
    (load_documents envOneBadFile initState).1 ≠ split_documents 1000 200 [⟨"hello", "a.txt"⟩] :=
  ⟨rfl, by decide⟩

/-- C5 (amended): a load error for any single source file aborts the
whole corpus load — the directory loader (default configuration)
raises on the first failing file, load_documents catches the exception,
prints a diagnostic and returns the empty list, discarding every
successfully loaded file; only when every file loads does it return
the chunks of all files (their count available to the caller as the
length of the returned list). -/
theorem C5_amended (env : Env) (st : RAGState) :
    (∀ e, directoryLoad env.fileOutcomes = .error e →
        load_documents env st =
          ([], { st with prints := st.prints ++ ["Error loading documents: " ++ e.msg] })) ∧
    (∀ ds, directoryLoad env.fileOutcomes = .ok ds →
        load_documents env st = (split_documents 1000 200 ds, st)) ∧
    ((∃ o ∈ env.fileOutcomes, ∃ e, o = .error e) →
        (load_documents env st).1 = []) := by
  refine ⟨?_, ?_, ?_⟩
  · intro e he
    simp [load_documents, he]
  · intro ds hds
    simp [load_documents, hds]
  · intro hfail
    obtain ⟨e, he⟩ := directoryLoad_error_of_failure env.fileOutcomes hfail
    simp [load_documents, he]

/-- C5 witness: the one-bad-file environment aborts with the empty
list and a diagnostic. -/
theorem C5_witness :
    load_documents envOneBadFile initState =
      ([], { initState with prints := ["Error loading documents: bad file b.txt"] }) :=
  (C5_amended envOneBadFile initState).1 ⟨"bad file b.txt"⟩ rfl

/-- C6: load_vector_store implements the load-or-build policy — if a
persisted index exists at the faiss_index path and deserializes, it
becomes the store; if none exists there, it falls back to building
from the configured document source; if persisted data exists but
fails to deserialize, the error surfaces to the caller unchanged (no
silent rebuild: the state, including the save log, is untouched). -/
theorem C6_theorem (env : Env) (st : RAGState) :
    (∀ vs, env.pathExists = true → env.loadLocal = .ok vs →
        load_vector_store env st =
          (.ok (), { st with
                     vector_store := some vs,
                     prints := st.prints ++ ["Vector store loaded successfully."] })) ∧
    (∀ e, env.pathExists = true → env.loadLocal = .error e →
        load_vector_store env st = (.error e, st)) ∧
    (env.pathExists = false →
        load_vector_store env st =
          create_vector_store env
            { st with
              prints := st.prints ++ ["No existing vector store found. Creating new one..."] }
            none) := by
  refine ⟨?_, ?_, ?_⟩
  · intro vs hp hl
    simp [load_vector_store, hp, hl]
  · intro e hp hl
    simp [load_vector_store, hp, hl]
  · intro hp
    simp [load_vector_store, hp]

/-- C6 witness: a loadable persisted index is loaded; a corrupt one
surfaces its error with the state unchanged. -/
theorem C6_witness :
    load_vector_store envLoadOk initState =
      (.ok (), { initState with
                 vector_store := some ⟨[⟨"chunk", "a.txt"⟩]⟩,
                 prints := ["Vector store loaded successfully."] }) ∧
    load_vector_store envCorruptIndex initState =
      (.error ⟨"could not deserialize faiss_index"⟩, initState) :=
  ⟨(C6_theorem envLoadOk initState).1 _ rfl rfl,
   (C6_theorem envCorruptIndex initState).2.1 _ rfl rfl⟩

/-- C10 counterexample: add_documents with an empty list is not a
no-op on the persisted state when the store is uninitialized — the
lazy load falls back to building the index from the knowledge base,
which saves to faiss_index and installs an in-memory store even though
the supplied document list was empty. -/
theorem C10_counterexample :
    (add_documents envFreshBuild initState []).2.saveCalls ≠ [] ∧
    (add_documents envFreshBuild initState []).2.vector_store ≠ none :=
  ⟨by decide, by decide⟩

/-- C10 (amended): provided the in-memory vector store is already
initialized, add_documents with an empty list is a complete no-op
(state unchanged, nothing saved); with a non-empty list, the updated
store is saved to faiss_index exactly when the underlying add
succeeds, and a failing add leaves the state unchanged with the error
propagating. -/
theorem C10_amended (env : Env) (st : RAGState) (vs : VectorStore)
    (h : st.vector_store = some vs) :
    (add_documents env st [] = (.ok (), st)) ∧
    (∀ documents vs2, documents ≠ [] → env.addDocs vs documents = .ok vs2 →
        (add_documents env st documents).2.saveCalls = st.saveCalls ++ [vs2] ∧
        (add_documents env st documents).2.vector_store = some vs2) ∧
    (∀ documents e, documents ≠ [] → env.addDocs vs documents = .error e →
        add_documents env st documents = (.error e, st)) := by
  refine ⟨?_, ?_, ?_⟩
  · simp [add_documents, h]
  · intro documents vs2 hne hadd
    cases documents with
    | nil => exact absurd rfl hne
    | cons dd dds =>
      cases hsv : env.saveResult <;> simp [add_documents, h, hadd, hsv]
  · intro documents e hne hadd
    cases documents with
    | nil => exact absurd rfl hne
    | cons dd dds =>
      simp [add_documents, h, hadd]

/-- C10 witness: with an initialized store, the empty add is a no-op. -/
theorem C10_witness :
    add_documents envLoadOk stWithStore [] = (.ok (), stWithStore) :=
  (C10_amended envLoadOk stWithStore _ rfl).1

/-! ### Lemmas about the chunker -/

theorem chunkStep_pos (size overlap : Nat) : 1 ≤ chunkStep size overlap :=
  Nat.le_max_left 1 _

theorem chunkStep_ge (size overlap : Nat) : size - overlap ≤ chunkStep size overlap :=
  Nat.le_max_right 1 _

/-- With enough fuel, every character-level window is at most
`chunk_size` long. -/
theorem charSpansGo_size_le (size overlap : Nat) :
    ∀ fuel start n, n ≤ fuel → ∀ p ∈ charSpansGo size overlap fuel start n, p.2 ≤ size := by
  intro fuel
  induction fuel with
  | zero =>
    intro start n hn p hp
    simp only [charSpansGo, List.mem_singleton] at hp
    subst hp
    show n ≤ size
    omega
  | succ f ih =>
    intro start n hn p hp
    by_cases h : n ≤ size
    · simp only [charSpansGo, if_pos h, List.mem_singleton] at hp
      subst hp
      exact h
    · simp only [charSpansGo, if_neg h, List.mem_cons] at hp
      have hstep := chunkStep_pos size overlap
      rcases hp with rfl | hp
      · exact le_refl _
      · exact ih _ _ (by omega) p hp

/-- Every character-level window lies inside the region
`[start, start + n)` it was asked to cover. -/
theorem charSpansGo_range (size overlap : Nat) :
    ∀ fuel start n, ∀ p ∈ charSpansGo size overlap fuel start n,
      start ≤ p.1 ∧ p.1 + p.2 ≤ start + n := by
  intro fuel
  induction fuel with
  | zero =>
    intro start n p hp
    simp only [charSpansGo, List.mem_singleton] at hp
    subst hp
    exact ⟨le_refl _, le_refl _⟩
  | succ f ih =>
    intro start n p hp
    by_cases h : n ≤ size
    · simp only [charSpansGo, if_pos h, List.mem_singleton] at hp
      subst hp
      exact ⟨le_refl _, le_refl _⟩
    · simp only [charSpansGo, if_neg h, List.mem_cons] at hp
      have hstep : chunkStep size overlap ≤ n := by
        have h1 := chunkStep_ge size overlap
        have h2 : chunkStep size overlap = max 1 (size - overlap) := rfl
        rw [h2]
        exact Nat.max_le.mpr ⟨by omega, by omega⟩
      rcases hp with rfl | hp
      · exact ⟨le_refl _, by show start + size ≤ start + n; omega⟩
      · obtain ⟨h1, h2⟩ := ih (start + chunkStep size overlap) (n - chunkStep size overlap) p hp
        exact ⟨by omega, by omega⟩

/-- The first character-level window starts at `start`. -/
theorem charSpansGo_head (size overlap fuel start n : Nat) :
    ∀ p ∈ (charSpansGo size overlap fuel start n).head?, p.1 = start := by
  cases fuel with
  | zero =>
    intro p hp
    simp only [charSpansGo, List.head?_cons, Option.mem_def, Option.some_inj] at hp
    subst hp
    rfl
  | succ f =>
    intro p hp
    by_cases h : n ≤ size
    · simp only [charSpansGo, if_pos h, List.head?_cons, Option.mem_def, Option.some_inj] at hp
      subst hp
      rfl
    · simp only [charSpansGo, if_neg h, List.head?_cons, Option.mem_def, Option.some_inj] at hp
      subst hp
      rfl

/-- Consecutive character-level windows overlap by at most
`chunk_overlap` positions: each window ends no later than
`chunk_overlap` past the start of the next one. -/
theorem charSpansGo_chain (size overlap : Nat) :
    ∀ fuel start n, List.Chain' (fun a b : Nat × Nat => a.1 + a.2 ≤ b.1 + overlap)
      (charSpansGo size overlap fuel start n) := by
  intro fuel
  induction fuel with
  | zero => intro start n; exact List.chain'_singleton _
  | succ f ih =>
    intro start n
    by_cases h : n ≤ size
    · simp only [charSpansGo, if_pos h]
      exact List.chain'_singleton _
    · simp only [charSpansGo, if_neg h]
      rw [List.chain'_cons']
      refine ⟨?_, ih _ _⟩
      intro y hy
      have hy1 := charSpansGo_head size overlap f (start + chunkStep size overlap)
        (n - chunkStep size overlap) y hy
      have hge := chunkStep_ge size overlap
      show start + size ≤ y.1 + overlap
      omega

/-- The segments produced by `splitKeep` concatenate back to the
original text. -/
theorem splitKeep_flatten (c : Char) : ∀ s : List Char, (splitKeep c s).flatten = s := by
  intro s
  induction s with
  | nil => rfl
  | cons a rest ih =>
    simp only [splitKeep]
    cases hsk : splitKeep c rest with
    | nil =>
      rw [hsk] at ih
      simp only [List.flatten_nil] at ih
      simp [List.flatten, ← ih]
    | cons seg segs =>
      rw [hsk] at ih
      simp only [List.flatten_cons] at ih
      by_cases h : a = c
      · simp [h, ih]
      · simp [h, ih]

/-- The segment lengths of `splitKeep` sum to the text's length. -/
theorem splitKeep_sumLen (c : Char) (s : List Char) :
    ((splitKeep c s).map List.length).sum = s.length := by
  rw [← List.length_flatten, splitKeep_flatten]

/-- Every offset-annotated segment lies inside the region starting at
`start` whose extent is the total length of the segments. -/
theorem mem_withOffsets :
    ∀ (segs : List (List Char)) (start : Nat) (q : Nat × List Char),
      q ∈ withOffsets start segs →
      start ≤ q.1 ∧ q.1 + q.2.length ≤ start + (segs.map List.length).sum := by
  intro segs
  induction segs with
  | nil => intro start q hq; cases hq
  | cons seg segs ih =>
    intro start q hq
    simp only [withOffsets, List.mem_cons] at hq
    rcases hq with rfl | hq
    · refine ⟨le_refl _, ?_⟩
      show start + seg.length ≤ start + (List.map List.length (seg :: segs)).sum
      simp only [List.map_cons, List.sum_cons]
      omega
    · obtain ⟨h1, h2⟩ := ih (start + seg.length) q hq
      simp only [List.map_cons, List.sum_cons]
      exact ⟨by omega, by omega⟩

/-- Spans produced over later segments never start before the running
offset. -/
theorem flatMap_withOffsets_lb (f : Nat × List Char → List (Nat × Nat))
    (fRange : ∀ q p, p ∈ f q → q.1 ≤ p.1 ∧ p.1 + p.2 ≤ q.1 + q.2.length) :
    ∀ (segs : List (List Char)) (start : Nat) (p : Nat × Nat),
      p ∈ (withOffsets start segs).flatMap f → start ≤ p.1 := by
  intro segs start p hp
  rw [List.mem_flatMap] at hp
  obtain ⟨q, hq, hpq⟩ := hp
  have h1 := (mem_withOffsets segs start q hq).1
  have h2 := (fRange q p hpq).1
  omega

/-- Concatenating per-segment span lists preserves the bounded-overlap
chain: within a segment by assumption, and across a segment boundary
the earlier segment's spans end before the next segment begins. -/
theorem chain'_flatMap_withOffsets (overlap : Nat)
    (f : Nat × List Char → List (Nat × Nat))
    (fChain : ∀ q, List.Chain' (fun a b : Nat × Nat => a.1 + a.2 ≤ b.1 + overlap) (f q))
    (fRange : ∀ q p, p ∈ f q → q.1 ≤ p.1 ∧ p.1 + p.2 ≤ q.1 + q.2.length) :
    ∀ (segs : List (List Char)) (start : Nat),
      List.Chain' (fun a b : Nat × Nat => a.1 + a.2 ≤ b.1 + overlap)
        ((withOffsets start segs).flatMap f) := by
  intro segs
  induction segs with
  | nil => intro start; simp [withOffsets]
  | cons seg segs ih =>
    intro start
    simp only [withOffsets, List.flatMap_cons]
    rw [List.chain'_append]
    refine ⟨fChain _, ih _, ?_⟩
    intro x hx y hy
    have hx' : x ∈ f (start, seg) := List.mem_of_mem_getLast? hx
    have hy' : y ∈ (withOffsets (start + seg.length) segs).flatMap f :=
      List.mem_of_mem_head? hy
    have h1 : x.1 + x.2 ≤ start + seg.length := (fRange _ x hx').2
    have h2 := flatMap_withOffsets_lb f fRange segs (start + seg.length) y hy'
    show x.1 + x.2 ≤ y.1 + overlap
    omega

/-- Every span the recursive splitter produces is at most `chunk_size`
long. -/
theorem recSpans_size_le (size overlap : Nat) :
    ∀ (seps : List Char) (start : Nat) (s : List Char),
      ∀ p ∈ recSpans size overlap seps start s, p.2 ≤ size := by
  intro seps
  induction seps with
  | nil =>
    intro start s p hp
    exact charSpansGo_size_le size overlap s.length start s.length (le_refl _) p hp
  | cons c rest ih =>
    intro start s p hp
    by_cases h : s.length ≤ size
    · simp only [recSpans, if_pos h, List.mem_singleton] at hp
      subst hp
      exact h
    · simp only [recSpans, if_neg h, List.mem_flatMap] at hp
      obtain ⟨q, hq, hpq⟩ := hp
      by_cases h2 : q.2.length ≤ size
      · simp only [if_pos h2, List.mem_singleton] at hpq
        subst hpq
        exact h2
      · simp only [if_neg h2] at hpq
        exact ih q.1 q.2 p hpq

/-- Every span the recursive splitter produces lies inside the text
region it was asked to split. -/
theorem recSpans_range (size overlap : Nat) :
    ∀ (seps : List Char) (start : Nat) (s : List Char),
      ∀ p ∈ recSpans size overlap seps start s,
        start ≤ p.1 ∧ p.1 + p.2 ≤ start + s.length := by
  intro seps
  induction seps with
  | nil =>
    intro start s p hp
    exact charSpansGo_range size overlap s.length start s.length p hp
  | cons c rest ih =>
    intro start s p hp
    by_cases h : s.length ≤ size
    · simp only [recSpans, if_pos h, List.mem_singleton] at hp
      subst hp
      exact ⟨le_refl _, le_refl _⟩
    · simp only [recSpans, if_neg h, List.mem_flatMap] at hp
      obtain ⟨q, hq, hpq⟩ := hp
      have hqb := mem_withOffsets (splitKeep c s) start q hq
      rw [splitKeep_sumLen] at hqb
      by_cases h2 : q.2.length ≤ size
      · simp only [if_pos h2, List.mem_singleton] at hpq
        subst hpq
        exact ⟨hqb.1, hqb.2⟩
      · simp only [if_neg h2] at hpq
        obtain ⟨h3, h4⟩ := ih q.1 q.2 p hpq
        exact ⟨le_trans hqb.1 h3, le_trans h4 hqb.2⟩

/-- Consecutive spans of the recursive splitter overlap by at most
`chunk_overlap` positions. -/
theorem recSpans_chain (size overlap : Nat) :
    ∀ (seps : List Char) (start : Nat) (s : List Char),
      List.Chain' (fun a b : Nat × Nat => a.1 + a.2 ≤ b.1 + overlap)
        (recSpans size overlap seps start s) := by
  intro seps
  induction seps with
  | nil => intro start s; exact charSpansGo_chain size overlap s.length start s.length
  | cons c rest ih =>
    intro start s
    by_cases h : s.length ≤ size
    · simp only [recSpans, if_pos h]
      exact List.chain'_singleton _
    · simp only [recSpans, if_neg h]
      exact chain'_flatMap_withOffsets overlap _
        (fun q => by
          by_cases h2 : q.2.length ≤ size
          · simp only [if_pos h2]
            exact List.chain'_singleton _
          · simp only [if_neg h2]
            exact ih q.1 q.2)
        (fun q p hp => by
          by_cases h2 : q.2.length ≤ size
          · simp only [if_pos h2, List.mem_singleton] at hp
            subst hp
            exact ⟨le_refl _, le_refl _⟩
          · simp only [if_neg h2] at hp
            exact recSpans_range size overlap rest q.1 q.2 p hp)
        (splitKeep c s) start

/-- C8: at the configuration load_documents uses
(`chunk_size = 1000`, `chunk_overlap = 200`), every chunk the modelled
splitter produces has character length at most 1000 (in particular
every non-final chunk, as the claim states), and the spans of
consecutive chunks of the same document overlap by at most 200
positions — each chunk ends no more than 200 characters past the start
of the next, so the text they share is at most the 200-character
overlap window. -/
theorem C8_theorem (text : List Char) :
    (∀ ck ∈ splitText 1000 200 text, ck.length ≤ 1000) ∧
    List.Chain' (fun a b : Nat × Nat => a.1 + a.2 ≤ b.1 + 200)
      (splitSpans 1000 200 text) := by
  constructor
  · intro ck hck
    simp only [splitText, List.mem_map] at hck
    obtain ⟨p, hp, rfl⟩ := hck
    have hle : p.2 ≤ 1000 := by
      simp only [splitSpans] at hp
      by_cases h : text.isEmpty
      · simp [h] at hp
      · simp only [if_neg h] at hp
        exact recSpans_size_le 1000 200 separators 0 text p hp
    calc ((text.drop p.1).take p.2).length ≤ p.2 := by
          rw [List.length_take]
          exact min_le_left _ _
      _ ≤ 1000 := hle
  · simp only [splitSpans]
    by_cases h : text.isEmpty
    · simp [h]
    · simp only [if_neg h]
      exact recSpans_chain 1000 200 separators 0 text

/-- C8 witness: a short document is one whole chunk, within the size
bound. -/
theorem C8_witness :
    "hello world".toList ∈ splitText 1000 200 ("hello world".toList) ∧
    ("hello world".toList).length ≤ 1000 :=
  ⟨by decide, (C8_theorem ("hello world".toList)).1 _ (by decide)⟩

end RagSystem
